import Mathlib

/-!
Shallow embedding of the lead ingestion / normalization / intent-classification
pipeline implemented in `frontend-b2b/app/api/leads/route.ts`, together with
theorems settling the frozen claims about that pipeline.

Conventions of the embedding:
* JavaScript strings are modelled by `String`, manipulated through their
  character lists (`String.toList` / `String.mk`), so that `.includes`,
  `.trim`, `.toLowerCase`, `.slice` and `.split` become executable list
  functions.  JS `toLowerCase` only differs from `Char.toLower` outside
  ASCII letters, and every keyword list in the source is ASCII or Chinese,
  where both are the identity.
* JS numbers reaching the score arithmetic are integers (every operand is
  either an integer literal or passed through `Math.trunc`), so they are
  modelled by `Int`.
* Optional / possibly-absent record fields become `Option` fields and the
  JS falsy checks (`x || d`) become explicit empty-string / `Option` tests.
-/

namespace LeadsRoute

/-! ## JavaScript string primitives -/

/-- Character-list model of `String.prototype.toLowerCase`.  `Char.toLower`
lowers ASCII letters and is the identity elsewhere, which agrees with JS on
every string the pipeline manipulates. -/
def jsToLower (s : String) : String := String.mk (s.toList.map Char.toLower)

/-- Character-list model of `String.prototype.trim`: drop whitespace from
both ends. -/
def trimChars (l : List Char) : List Char :=
  ((l.dropWhile Char.isWhitespace).reverse.dropWhile Char.isWhitespace).reverse

/-- Model of `String.prototype.trim`. -/
def jsTrim (s : String) : String := String.mk (trimChars s.toList)

/-- Does `hay` start with `needle`? (helper for the substring test). -/
def beginsWith : List Char → List Char → Bool
  | [], _ => true
  | _ :: _, [] => false
  | n :: ns, h :: hs => n == h && beginsWith ns hs

/-- Does `needle` occur contiguously inside `hay`?  Model of
`String.prototype.includes`. -/
def occursIn (needle : List Char) : List Char → Bool
  | [] => needle.isEmpty
  | h :: hs => beginsWith needle (h :: hs) || occursIn needle hs

/-- `strContains hay needle` models `hay.includes(needle)`. -/
def strContains (hay needle : String) : Bool := occursIn needle.toList hay.toList

/-- Remove one trailing `'\r'`, used to model splitting on the regex
`/\r?\n/`. -/
def stripTrailingCR (l : List Char) : List Char :=
  if l.getLast? = some '\r' then l.dropLast else l

/-- Model of `String.prototype.split(/\r?\n/)`: split on `'\n'` and strip a
single carriage return left at the end of each piece. -/
def splitLines (s : String) : List String :=
  (s.toList.splitOn '\n').map (fun l => String.mk (stripTrailingCR l))

/-- Model of `String.prototype.split("|")`. -/
def splitPipe (s : String) : List String :=
  (s.toList.splitOn '|').map String.mk

/-- Model of `s.slice(0, n)` for `0 ≤ n`. -/
def strTake (s : String) (n : Nat) : String := String.mk (s.toList.take n)

/-- Model of `s.slice(-n)` for `0 < n`: the last `n` characters. -/
def takeRight (s : String) (n : Nat) : String :=
  String.mk (s.toList.drop (s.toList.length - n))

/-- Model of the JS falsy-default idiom `String(v || d)` for an optional
string `v`: an absent value and the empty string both fall back to `d`. -/
def jsOr (v : Option String) (d : String) : String :=
  match v with
  | none => d
  | some s => if s = "" then d else s

/-- Model of `clamp` (route.ts line 147): `Math.max(min, Math.min(max, n))`. -/
def clamp (n lo hi : Int) : Int := max lo (min hi n)

/-- Digits-only decimal reading; `none` if empty or any non-digit. -/
def decDigits : List Char → Option Nat
  | [] => none
  | cs =>
    cs.foldl
      (fun acc c =>
        match acc with
        | none => none
        | some n => if c.isDigit then some (n * 10 + (c.toNat - '0'.toNat)) else none)
      (some 0)

/-- Model of `Number(s)` restricted to optional-sign decimal integer strings,
which is the only numeric shape the pipeline's metadata ever carries.  As in
JS, a string that is empty after trimming evaluates to `0`; any unparsable
string becomes `none` (NaN). Fractional / exponent / hex forms of the full JS
grammar are not modelled; no claim depends on them and `clamp` bounds every
use. -/
def jsNumber (s : String) : Option Int :=
  let t := jsTrim s
  if t = "" then some 0
  else
    match t.toList with
    | '-' :: rest => (decDigits rest).map (fun n => -(n : Int))
    | '+' :: rest => (decDigits rest).map (fun n => (n : Int))
    | cs => (decDigits cs).map (fun n => (n : Int))

/-- Model of `parseIntSafe` (route.ts line 141): `Math.trunc(Number(v))` with
a fallback for `undefined`/NaN. Our parsed numbers are already integral, so
`Math.trunc` is the identity on them. -/
def parseIntSafe (v : Option String) (fallback : Int) : Int :=
  match v with
  | none => fallback
  | some s => (jsNumber s).getD fallback

/-- Model of `Math.trunc(b * 2.2)` for an integer `b` (route.ts line 314):
toward-zero truncation of `11 * b / 5`.  The binary64 value of `2.2` rounds
up, so for every magnitude the pipeline can produce the double product
truncates exactly like the rational product. -/
def truncMul22 (b : Int) : Int := Int.tdiv (11 * b) 5

/-- Stand-in for `md5_16` (route.ts line 279), the 16-hex-character MD5
prefix used to derive fallback external ids.  No claim in this development
depends on the value of the hash — only on where it is used — so the
compression function itself is modelled as an injective tagging of its
input. -/
def md5_16 (text : String) : String := "md5:" ++ text

/-! ## Data model -/

inductive IntentLevel
  | high
  | medium
  | low
deriving DecidableEq, Repr

structure LeadRow where
  external_id : String
  platform : String
  author : String
  keyword : String
  score : Int
  intent_level : IntentLevel
  is_target : Bool
  is_competitor : Bool
  dm_ready : Bool
  author_url : String
  post_url : String
  source_url : String
  content : String
  contact : String
  collected_at : String
deriving DecidableEq, Repr

structure SupabaseLeadRecord where
  id : Option String := none
  name : Option String := none
  phone : Option String := none
  notes : Option String := none
  created_at : Option String := none
deriving DecidableEq, Repr

structure VerticalConfig where
  key : String
  intentKeywords : List String
  targetHints : List String
  competitorKeywords : List String
deriving DecidableEq, Repr

/-! ## Vertical configuration (route.ts lines 73-133) -/

def DEFAULT_VERTICAL : String := "study_abroad"

def studyAbroadConfig : VerticalConfig where
  key := "study_abroad"
  intentKeywords :=
    ["留学", "申请", "文书", "中介", "择校", "雅思", "托福", "gpa", "offer",
     "硕士", "本科", "博士", "费用", "预算", "签证", "deadline"]
  targetHints :=
    ["留学", "申请", "择校", "文书", "预算", "费用", "雅思", "托福", "gpa",
     "offer", "请问", "求推荐", "求助", "怎么选"]
  competitorKeywords :=
    ["留学中介", "留学机构", "顾问老师", "保录", "代办", "服务报价", "工作室",
     "教育机构", "官方账号"]

def vibeCodingConfig : VerticalConfig where
  key := "vibe_coding"
  intentKeywords := ["独立开发", "saas", "获客", "转化", "冷启动", "增长", "出海", "agent"]
  targetHints := ["求工具", "求推荐", "获客", "自动化", "订阅", "转化", "客户", "线索"]
  competitorKeywords := ["代运营", "课程", "训练营", "工作室", "咨询服务", "接单"]

/-- `VERTICAL_CONFIGS` as an association list keyed like the source record. -/
def VERTICAL_CONFIGS : List (String × VerticalConfig) :=
  [("study_abroad", studyAbroadConfig), ("vibe_coding", vibeCodingConfig)]

def DEMAND_TERMS : List String :=
  ["求推荐", "求助", "请问", "有没有", "哪家", "想找", "怎么选", "预算", "费用", "急", "避雷"]

def QUESTION_TERMS : List String :=
  ["?", "？", "请问", "有没有", "哪家", "怎么", "如何"]

/-- Model of `normalizeVertical` (route.ts line 156). -/
def normalizeVertical (vertical : String) : String :=
  let key := jsToLower (jsTrim vertical)
  if (VERTICAL_CONFIGS.find? (fun p => p.1 = key)).isSome then key else DEFAULT_VERTICAL

/-- Model of `getVerticalConfig` (route.ts line 161). -/
def getVerticalConfig (vertical : String) : VerticalConfig :=
  ((VERTICAL_CONFIGS.find? (fun p => p.1 = normalizeVertical vertical)).map Prod.snd).getD
    studyAbroadConfig

/-! ## Classifier (route.ts lines 151-214) -/

/-- Model of `containsAny` (route.ts line 151). -/
def containsAny (text : String) (terms : List String) : Bool :=
  let t := jsToLower text
  terms.any (fun term => strContains t (jsToLower term))

structure IntentSig where
  level : IntentLevel
  bonus : Int
  question : Bool
deriving DecidableEq, Repr

/-- Model of `scoreIntent` (route.ts lines 165-174). -/
def scoreIntent (text : String) (intentTerms : List String) : IntentSig :=
  let t := jsToLower text
  let hit := intentTerms.foldl
    (fun acc term => if strContains t (jsToLower term) then acc + 1 else acc) (0 : Nat)
  let urgent := containsAny t ["急", "ddl", "deadline", "来不及", "本周", "这周", "马上", "尽快"]
  let question := containsAny t QUESTION_TERMS
  if 2 ≤ hit ∨ (1 ≤ hit ∧ urgent = true) then { level := .high, bonus := 22, question }
  else if 1 ≤ hit ∨ question = true then { level := .medium, bonus := 12, question }
  else { level := .low, bonus := 0, question }

def NOISE_AUTHORS : List String := ["", "search_card", "unknown", "匿名", "none", "null"]

def INSTITUTIONAL_AUTHOR_HINTS : List String :=
  ["中介", "机构", "顾问", "工作室", "教育", "老师", "官方", "播报", "留学服务", "留学咨询"]

def SELF_PROMO_TERMS : List String :=
  ["私信我", "加我微信", "微信咨询", "欢迎咨询", "咨询我", "服务报价", "套餐", "保录", "代办", "点击主页"]

def DIRECT_SELL_TERMS : List String :=
  ["私信", "加v", "微信", "咨询", "报价", "套餐", "保录", "代办", "服务"]

/-- Model of `isCompetitor` (route.ts lines 176-199). -/
def isCompetitor (author text : String) (competitorTerms : List String) : Bool :=
  let authorLower := jsToLower (jsTrim author)
  let textLower := jsToLower text
  if NOISE_AUTHORS.contains authorLower then true
  else if containsAny authorLower INSTITUTIONAL_AUTHOR_HINTS then true
  else
    let demandLike := containsAny textLower DEMAND_TERMS || containsAny textLower QUESTION_TERMS
    let selfPromoLike := containsAny textLower SELF_PROMO_TERMS
    let salesHits := DIRECT_SELL_TERMS.foldl
      (fun acc term => if strContains textLower term then acc + 1 else acc) (0 : Nat)
    if selfPromoLike || 2 ≤ salesHits then true
    else if containsAny textLower competitorTerms && !demandLike then true
    else false

/-- Model of `isTarget` (route.ts lines 201-214). -/
def isTarget (text : String) (competitor : Bool) (intentLevel : IntentLevel)
    (targetTerms : List String) : Bool :=
  if competitor then false
  else if intentLevel = .high ∨ intentLevel = .medium then true
  else
    let textLower := jsToLower text
    let demandLike := containsAny textLower DEMAND_TERMS
    let questionLike := containsAny textLower QUESTION_TERMS
    let hit := targetTerms.foldl
      (fun acc term => if strContains textLower (jsToLower term) then acc + 1 else acc) (0 : Nat)
    if 2 ≤ hit then true
    else if 1 ≤ hit ∧ (demandLike = true ∨ questionLike = true) then true
    else if demandLike = true ∧ 25 ≤ textLower.length then true
    else false

/-! ## Note Codec (route.ts lines 216-277) -/

/-- Metadata mapping built by `parseNoteMeta`: modelled as the list of
assignments in execution order, looked up last-write-wins like a JS object. -/
abbrev NoteMeta := List (String × String)

/-- Last-write-wins lookup, the observable behaviour of `out[key] = value`
on a plain JS object. -/
def metaGet (m : NoteMeta) (k : String) : Option String :=
  (m.reverse.find? (fun p => p.1 = k)).map Prod.snd

/-- Split a `|`-chunk at its first `'='`; `none` when there is no `'='` or it
is the first character (`idx <= 0` in the source). -/
def splitFirstEq (part : String) : Option (String × String) :=
  let cs := part.toList
  match cs.findIdx? (fun c => c = '=') with
  | none => none
  | some 0 => none
  | some idx => some (String.mk (cs.take idx), String.mk (cs.drop (idx + 1)))

/-- Model of `parseNoteMeta` (route.ts lines 216-236). -/
def parseNoteMeta (notes : String) : NoteMeta :=
  (splitLines notes).foldl
    (fun out raw =>
      let line := jsTrim raw
      if line = "" then out
      else
        (splitPipe line).foldl
          (fun out chunk =>
            let part := jsTrim chunk
            match splitFirstEq part with
            | none => out
            | some (k, v) =>
              let key := jsToLower (jsTrim k)
              let value := jsTrim v
              if key = "" then out else out ++ [(key, value)])
          out)
    []

/-- The recognized-metadata key set of `extractNoteContent`
(route.ts lines 239-253). -/
def META_KEYS : List String :=
  ["source", "platform", "score", "intent", "keyword", "dm_ready", "access_hint",
   "post_url", "author_url", "source_url", "collected_at", "external_id", "openclaw_sync"]

/-- The per-line survival test of `extractNoteContent` (route.ts lines
257-274): a raw line is pushed onto the body exactly when it is non-blank,
none of its `|`-chunks parses a recognized metadata key, and the line
contains no `'='` at all. -/
def keepNoteLine (raw : String) : Bool :=
  let line := jsTrim raw
  if line = "" then false
  else
    let parsedMeta := (splitPipe line).any
      (fun chunk =>
        let part := jsTrim chunk
        match splitFirstEq part with
        | none => false
        | some (k, _) => META_KEYS.contains (jsToLower (jsTrim k)))
    !parsedMeta && !(strContains line "=")

/-- Model of `Array.prototype.join(" ")`. -/
def joinSpace : List String → String
  | [] => ""
  | [x] => x
  | x :: xs => x ++ " " ++ joinSpace xs

/-- Model of `extractNoteContent` (route.ts lines 238-277): keep only lines
that survive `keepNoteLine` (the source's push-into-`body` loop is exactly a
filter in iteration order), join them with single spaces and trim. -/
def extractNoteContent (notes : String) : String :=
  jsTrim (joinSpace ((splitLines notes).filter keepNoteLine))

/-! ## Record Mapper (route.ts lines 283-337) -/

/-- The pipeline-provenance test of `mapSupabaseRecord` (route.ts line 288):
`meta.openclaw_sync === "1" || Boolean(meta.external_id || meta.post_url ||
meta.author_url)`. -/
def hasOpenclawSignal (meta : NoteMeta) : Bool :=
  decide (metaGet meta "openclaw_sync" = some "1")
    || decide (jsOr (metaGet meta "external_id") "" ≠ "")
    || decide (jsOr (metaGet meta "post_url") "" ≠ "")
    || decide (jsOr (metaGet meta "author_url") "" ≠ "")

/-- Model of `mapSupabaseRecord` (route.ts lines 283-337). -/
def mapSupabaseRecord (record : SupabaseLeadRecord) (vertical : String) : Option LeadRow :=
  let notes := record.notes.getD ""
  if notes = "" then none
  else
    let meta := parseNoteMeta notes
    if !hasOpenclawSignal meta then none
    else
      let cfg := getVerticalConfig vertical
      let author := (fun a => if a = "" then "Unknown" else a) (jsTrim (jsOr record.name "Unknown"))
      let keyword := jsTrim (jsOr (metaGet meta "keyword") "")
      let content := (fun c => if c = "" then takeRight notes 280 else c) (extractNoteContent notes)
      let platform := (fun p => if p = "" then "xhs" else p)
        (jsToLower (jsTrim (jsOr (metaGet meta "source") (jsOr (metaGet meta "platform") "xhs"))))
      let authorUrl := jsTrim (jsOr (metaGet meta "author_url") "")
      let postUrl := jsTrim (jsOr (metaGet meta "post_url") "")
      let sourceUrl := jsTrim (jsOr (metaGet meta "source_url") "")
      let collectedAt := jsTrim (jsOr (metaGet meta "collected_at") (jsOr record.created_at ""))
      let contact := jsTrim (jsOr record.phone "")
      let textBlob := author ++ " " ++ keyword ++ " " ++ content
      let intentSig := scoreIntent textBlob cfg.intentKeywords
      let competitor := isCompetitor author textBlob cfg.competitorKeywords
      let target := isTarget textBlob competitor intentSig.level cfg.targetHints
      let dmMeta := jsToLower (jsTrim (jsOr (metaGet meta "dm_ready") ""))
      let dmFromMeta := dmMeta = "1" ∨ dmMeta = "true" ∨ dmMeta = "yes"
      let dmFromUrl := strContains (jsToLower authorUrl) "/user/profile/"
        || strContains (jsToLower authorUrl) "xiaohongshu.com/user"
      let dmReady := decide dmFromMeta || dmFromUrl
      let baseScore := parseIntSafe (metaGet meta "score") 70
      let calibratedBase := clamp (30 + truncMul22 baseScore) 35 85
      let demandBonus : Int :=
        if containsAny textBlob DEMAND_TERMS then 14 else if intentSig.question then 6 else 0
      let score := clamp
        (calibratedBase + intentSig.bonus + demandBonus + (if dmReady then 8 else 0)
          - (if competitor then 18 else 0)) 0 100
      let externalId := (fun e =>
          if e = "" then
            md5_16 (platform ++ "|" ++ author ++ "|" ++ postUrl ++ "|" ++ strTake content 80)
          else e)
        (jsTrim (jsOr (metaGet meta "external_id") ""))
      some
        { external_id := externalId
          platform
          author
          keyword
          score
          intent_level := intentSig.level
          is_target := target
          is_competitor := competitor
          dm_ready := dmReady
          author_url := authorUrl
          post_url := postUrl
          source_url := sourceUrl
          content
          contact
          collected_at := collectedAt }

/-! ## Aggregator (route.ts lines 339-380) -/

structure Summary where
  total_rows : Nat
  filtered_rows : Nat
  target_rows : Nat
  competitor_rows : Nat
  dm_ready_rows : Nat
  score_ge_65_rows : Nat
  platform_counts : List (String × Nat)
deriving DecidableEq, Repr

/-- One step of the platform-count accumulation
(`platformCounts[p] = (platformCounts[p] || 0) + 1`). -/
def bumpPlatform (m : List (String × Nat)) (p : String) : List (String × Nat) :=
  if m.any (fun q => q.1 = p) then m.map (fun q => if q.1 = p then (q.1, q.2 + 1) else q)
  else m ++ [(p, 1)]

/-- Model of `summarize` (route.ts lines 339-355). -/
def summarize (rows : List LeadRow) : Summary where
  total_rows := rows.length
  filtered_rows := 0
  target_rows := (rows.filter (fun x => x.is_target)).length
  competitor_rows := (rows.filter (fun x => x.is_competitor)).length
  dm_ready_rows := (rows.filter (fun x => x.dm_ready)).length
  score_ge_65_rows := (rows.filter (fun x => 65 ≤ x.score)).length
  platform_counts :=
    rows.foldl (fun m item => bumpPlatform m (if item.platform = "" then "unknown" else item.platform)) []

structure BuildParams where
  limit : Int
  minScore : Int
  onlyTarget : Bool
  excludeCompetitors : Bool
  vertical : String
deriving DecidableEq, Repr

structure Filters where
  limit : Int
  min_score : Int
  only_target : Bool
  exclude_competitors : Bool
deriving DecidableEq, Repr

/-- The response envelope.  `generated_at` (a wall-clock timestamp) is the
one field of the source payload left out of the model: it is I/O, and no
claim mentions it. -/
structure LeadsPayload where
  vertical : String
  filters : Filters
  summary : Summary
  rows : List LeadRow
deriving DecidableEq, Repr

/-- The competitor-exclusion filter of `buildPayload` (route.ts line 359). -/
def filterCompetitors (rows : List LeadRow) (params : BuildParams) : List LeadRow :=
  if params.excludeCompetitors then rows.filter (fun x => !x.is_competitor) else rows

/-- The target-restriction filter of `buildPayload` (route.ts line 360). -/
def filterTargets (rows : List LeadRow) (params : BuildParams) : List LeadRow :=
  if params.onlyTarget then rows.filter (fun x => x.is_target) else rows

/-- The minimum-score filter of `buildPayload` (route.ts line 361); the
source only applies it when `minScore > 0`. -/
def filterMinScore (rows : List LeadRow) (params : BuildParams) : List LeadRow :=
  if 0 < params.minScore then rows.filter (fun x => params.minScore ≤ x.score) else rows

/-- The rows surviving the competitor/target/min-score filters of
`buildPayload`, before truncation to `limit` (route.ts lines 358-361). -/
def rowsPassingFilters (rows : List LeadRow) (params : BuildParams) : List LeadRow :=
  filterMinScore (filterTargets (filterCompetitors rows params) params) params

/-- Model of `buildPayload` (route.ts lines 357-380).  Note the source sets
`summary.filtered_rows` from the list *after* `slice(0, max(1, limit))`. -/
def buildPayload (rows : List LeadRow) (params : BuildParams) : LeadsPayload :=
  let truncated := (rowsPassingFilters rows params).take (max 1 params.limit).toNat
  { vertical := params.vertical
    filters :=
      { limit := params.limit
        min_score := params.minScore
        only_target := params.onlyTarget
        exclude_competitors := params.excludeCompetitors }
    summary := { summarize rows with filtered_rows := truncated.length }
    rows := truncated }

/-! ## Source loaders, pure parts (route.ts lines 382-430 and 513-562) -/

/-- Code-point-wise string comparison (is `a` ≤ `b`?), the executable stand-in
for `localeCompare` on the ISO-ish timestamp strings. -/
def cpLe : List Char → List Char → Bool
  | [], _ => true
  | _ :: _, [] => false
  | a :: as, b :: bs => if a.val < b.val then true else if b.val < a.val then false else cpLe as bs

/-- The sort comparator shared by the Supabase loader and the snapshot
loader: score descending, then `collected_at` descending as tie-break.
`localeCompare` on the ISO-ish timestamp strings is modelled by the
code-point string order; every claim about the sorted list is
permutation-invariant, so the exact tie order is immaterial. -/
def rowOrder (a b : LeadRow) : Prop :=
  b.score < a.score ∨ (a.score = b.score ∧ cpLe b.collected_at.toList a.collected_at.toList = true)

instance : DecidableRel rowOrder := fun a b =>
  inferInstanceAs (Decidable
    (b.score < a.score ∨ (a.score = b.score ∧ cpLe b.collected_at.toList a.collected_at.toList = true)))

/-- Model of `Array.prototype.sort` with the loaders' comparator. -/
def sortRows (rows : List LeadRow) : List LeadRow := rows.insertionSort rowOrder

/-- First-occurrence deduplication by `external_id`, the observable content
of the `uniq` map in `loadLeadsFromSupabase` (route.ts lines 413-419). -/
def dedupByExternalId (rows : List LeadRow) : List LeadRow :=
  rows.foldl
    (fun acc r => if acc.any (fun x => x.external_id = r.external_id) then acc else acc ++ [r])
    []

/-- The pure row-assembly core of `loadLeadsFromSupabase` (route.ts lines
412-426): map each fetched record, drop nulls, dedup by `external_id`
keeping first occurrences, sort. The surrounding HTTP fetch and env-var
configuration are I/O and are not modelled. -/
def loadRowsFromSupabaseRecords (records : List SupabaseLeadRecord) (vertical : String) :
    List LeadRow :=
  sortRows (dedupByExternalId (records.filterMap (fun r => mapSupabaseRecord r vertical)))

/-- One raw item of the bundled snapshot file, with the JSON field types the
normalization in `loadFromBundledSnapshot` actually consumes. -/
structure SnapshotItem where
  external_id : Option String := none
  platform : Option String := none
  author : Option String := none
  keyword : Option String := none
  score : Option Int := none
  intent_level : Option String := none
  is_target : Option Bool := none
  is_competitor : Option Bool := none
  dm_ready : Option Bool := none
  author_url : Option String := none
  post_url : Option String := none
  source_url : Option String := none
  content : Option String := none
  contact : Option String := none
  collected_at : Option String := none
deriving DecidableEq, Repr

/-- The per-item normalization of `loadFromBundledSnapshot` (route.ts lines
524-550).  `Boolean(item?.is_target)` on a JSON boolean-or-absent field is
`Option.getD false`; `parseIntSafe(String(item?.score ?? 0), 0)` on a JSON
integer-or-absent field is the integer itself (0 when absent). -/
def mapSnapshotItem (item : SnapshotItem) : LeadRow :=
  let platform := (fun p => if p = "" then "unknown" else p)
    (jsToLower (jsTrim (jsOr item.platform "unknown")))
  let author := (fun a => if a = "" then "Unknown" else a) (jsTrim (jsOr item.author "Unknown"))
  let keyword := jsTrim (jsOr item.keyword "")
  let content := jsTrim (jsOr item.content "")
  let postUrl := jsTrim (jsOr item.post_url "")
  { external_id := (fun e =>
        if e = "" then
          md5_16 (platform ++ "|" ++ author ++ "|" ++ postUrl ++ "|" ++ strTake content 80)
        else e)
      (jsTrim (jsOr item.external_id ""))
    platform
    author
    keyword
    score := clamp (item.score.getD 0) 0 100
    intent_level :=
      match item.intent_level with
      | some "high" => .high
      | some "medium" => .medium
      | some "low" => .low
      | _ => .low
    is_target := item.is_target.getD false
    is_competitor := item.is_competitor.getD false
    dm_ready := item.dm_ready.getD false
    author_url := jsTrim (jsOr item.author_url "")
    post_url := postUrl
    source_url := jsTrim (jsOr item.source_url "")
    content
    contact := jsTrim (jsOr item.contact "")
    collected_at := jsTrim (jsOr item.collected_at "") }

/-- The pure row-assembly core of `loadFromBundledSnapshot` (route.ts lines
520-558): normalize every item, keep those with a truthy `external_id`,
sort.  Note: unlike the Supabase loader there is no deduplication step. -/
def loadRowsFromSnapshot (items : List SnapshotItem) : List LeadRow :=
  sortRows ((items.map mapSnapshotItem).filter (fun x => x.external_id != ""))

/-! ## Concrete fixtures used by witnesses and counterexamples -/

/-- A record whose notes parse recognized metadata keys (`source`) but carry
none of the mapper's provenance signals. -/
def sourceOnlyRecord : SupabaseLeadRecord := { notes := some "source=xhs\n你好" }

/-- A record whose notes carry only the sync marker and a prose line. -/
def provenanceOnlyRecord : SupabaseLeadRecord := { notes := some "openclaw_sync=1\n你好" }

/-- The row `mapSupabaseRecord provenanceOnlyRecord "study_abroad"` produces. -/
def mappedProvenanceOnlyRow : LeadRow :=
  { external_id := "md5:xhs|Unknown||你好"
    platform := "xhs"
    author := "Unknown"
    keyword := ""
    score := 67
    intent_level := .low
    is_target := false
    is_competitor := true
    dm_ready := false
    author_url := ""
    post_url := ""
    source_url := ""
    content := "你好"
    contact := ""
    collected_at := "" }

/-- The spec's Scenario A notes, verbatim. -/
def scenarioANotes : String :=
  "source=xhs | keyword=雅思 | score=80\n请问有没有靠谱的雅思中介推荐，预算一万以内"

/-- Scenario A notes augmented with the sync marker the mapper requires. -/
def scenarioANotesSynced : String :=
  "source=xhs | keyword=雅思 | score=80 | openclaw_sync=1\n请问有没有靠谱的雅思中介推荐，预算一万以内"

/-- A synced record of a self-promoting institutional author. -/
def promoCompetitorRecord : SupabaseLeadRecord :=
  { name := some "李老师", notes := some "openclaw_sync=1\n欢迎咨询，私信我获取留学套餐报价" }

/-- The row the Supabase loader produces from `promoCompetitorRecord`. -/
def promoCompetitorRow : LeadRow :=
  { external_id := "md5:xhs|李老师||欢迎咨询，私信我获取留学套餐报价"
    platform := "xhs"
    author := "李老师"
    keyword := ""
    score := 79
    intent_level := .medium
    is_target := false
    is_competitor := true
    dm_ready := false
    author_url := ""
    post_url := ""
    source_url := ""
    content := "欢迎咨询，私信我获取留学套餐报价"
    contact := ""
    collected_at := "" }

/-- A high-scoring non-competitor target row (fixture for filter claims). -/
def rowHighTarget : LeadRow :=
  { external_id := "row-a"
    platform := "xhs"
    author := "甲"
    keyword := ""
    score := 80
    intent_level := .high
    is_target := true
    is_competitor := false
    dm_ready := false
    author_url := ""
    post_url := ""
    source_url := ""
    content := "内容A"
    contact := ""
    collected_at := "2025-01-02" }

/-- A second passing target row with a distinct id and lower score. -/
def rowMidTarget : LeadRow :=
  { external_id := "row-b"
    platform := "xhs"
    author := "乙"
    keyword := ""
    score := 70
    intent_level := .medium
    is_target := true
    is_competitor := false
    dm_ready := false
    author_url := ""
    post_url := ""
    source_url := ""
    content := "内容B"
    contact := ""
    collected_at := "2025-01-01" }

/-- Filter parameters with a page limit of one. -/
def limitOneParams : BuildParams :=
  { limit := 1, minScore := 50, onlyTarget := true, excludeCompetitors := true,
    vertical := "study_abroad" }

/-- Two snapshot items sharing an explicit `external_id`. -/
def dupSnapshotItemA : SnapshotItem := { external_id := some "dup-1", score := some 50 }

def dupSnapshotItemB : SnapshotItem := { external_id := some "dup-1", score := some 20 }

/-- A snapshot item whose file-supplied flags violate the competitor/target
invariant. -/
def bothFlagsSnapshotItem : SnapshotItem :=
  { external_id := some "both-1", is_target := some true, is_competitor := some true }

/-! ## Helper lemmas -/

lemma mem_dropWhile_of_mem {p : Char → Bool} {c : Char} (hc : p c = false) :
    ∀ {l : List Char}, c ∈ l → c ∈ l.dropWhile p := by
  intro l
  induction l with
  | nil => intro h; cases h
  | cons a as ih =>
    intro h
    rw [List.dropWhile_cons]
    by_cases hp : p a = true
    · rw [if_pos hp]
      apply ih
      rcases List.mem_cons.mp h with h1 | h2
      · subst h1; rw [hp] at hc; cases hc
      · exact h2
    · rw [if_neg hp]
      exact h

lemma mem_of_mem_dropWhile {p : Char → Bool} {c : Char} :
    ∀ {l : List Char}, c ∈ l.dropWhile p → c ∈ l := by
  intro l
  induction l with
  | nil => intro h; cases h
  | cons a as ih =>
    intro h
    rw [List.dropWhile_cons] at h
    by_cases hp : p a = true
    · rw [if_pos hp] at h
      exact List.mem_cons_of_mem _ (ih h)
    · rw [if_neg hp] at h
      exact h

/-- A non-whitespace character survives `trim`. -/
lemma mem_trimChars_of_mem {c : Char} (hws : c.isWhitespace = false) {l : List Char}
    (h : c ∈ l) : c ∈ trimChars l := by
  unfold trimChars
  rw [List.mem_reverse]
  apply mem_dropWhile_of_mem hws
  rw [List.mem_reverse]
  exact mem_dropWhile_of_mem hws h

lemma mem_of_mem_trimChars {c : Char} {l : List Char} (h : c ∈ trimChars l) : c ∈ l := by
  unfold trimChars at h
  rw [List.mem_reverse] at h
  have h2 := mem_of_mem_dropWhile h
  rw [List.mem_reverse] at h2
  exact mem_of_mem_dropWhile h2

/-- Single-character substring search is list membership. -/
lemma occursIn_singleton (c : Char) (l : List Char) : occursIn [c] l = true ↔ c ∈ l := by
  induction l with
  | nil => simp [occursIn, List.isEmpty]
  | cons h hs ih =>
    simp only [occursIn, beginsWith, Bool.or_eq_true, Bool.and_eq_true, beq_iff_eq, ih,
      List.mem_cons]
    tauto

/-- The source's `reduce`-style hit counter agrees with `countP`. -/
lemma foldl_count_eq_countP {α : Type} (p : α → Bool) (l : List α) :
    l.foldl (fun acc a => if p a then acc + 1 else acc) 0 = l.countP p := by
  suffices h : ∀ n : Nat, l.foldl (fun acc a => if p a then acc + 1 else acc) n = n + l.countP p by
    simpa using h 0
  induction l with
  | nil => intro n; simp
  | cons a as ih =>
    intro n
    by_cases hp : p a = true <;> (simp [List.countP_cons, hp, ih]; try omega)

lemma scoreIntent_bonus_nonneg (t : String) (terms : List String) :
    0 ≤ (scoreIntent t terms).bonus := by
  simp only [scoreIntent]
  repeat' split <;> norm_num

lemma isTarget_of_competitor (t : String) (lvl : IntentLevel) (terms : List String) :
    isTarget t true lvl terms = false := rfl

lemma ite_int_nonneg (c : Prop) [Decidable c] (a b : Int) (ha : 0 ≤ a) (hb : 0 ≤ b) :
    0 ≤ if c then a else b := by split <;> assumption

lemma ite_int_le (c : Prop) [Decidable c] (a b d : Int) (ha : a ≤ d) (hb : b ≤ d) :
    (if c then a else b) ≤ d := by split <;> assumption

lemma clamp_lo_le (n lo hi : Int) : lo ≤ clamp n lo hi := by
  simp only [clamp]; omega

lemma seventeen_le_clamped_score (cal bonus dB dmT cT : Int) (h1 : 35 ≤ cal) (h2 : 0 ≤ bonus)
    (h3 : 0 ≤ dB) (h4 : 0 ≤ dmT) (h5 : cT ≤ 18) :
    17 ≤ clamp (cal + bonus + dB + dmT - cT) 0 100 := by
  simp only [clamp]; omega

/-- A blank-defaulting lookup that produced the empty string turns any other
default through unchanged. -/
lemma jsOr_of_blank (v : Option String) (d : String) (h : jsOr v "" = "") : jsOr v d = d := by
  cases v with
  | none => rfl
  | some s =>
    by_cases hs : s = ""
    · simp [jsOr, hs]
    · simp [jsOr, hs] at h

lemma sortRows_perm (l : List LeadRow) : (sortRows l).Perm l :=
  List.perm_insertionSort _ _

lemma mem_sortRows {x : LeadRow} {l : List LeadRow} : x ∈ sortRows l ↔ x ∈ l :=
  (sortRows_perm l).mem_iff

lemma dedup_go_mem (l : List LeadRow) (acc : List LeadRow) (x : LeadRow)
    (h : x ∈ l.foldl
      (fun acc r => if acc.any (fun y => y.external_id = r.external_id) then acc else acc ++ [r])
      acc) :
    x ∈ acc ∨ x ∈ l := by
  induction l generalizing acc with
  | nil => exact Or.inl h
  | cons r rs ih =>
    simp only [List.foldl_cons] at h
    by_cases hr : acc.any (fun y => y.external_id = r.external_id) = true
    · rw [if_pos hr] at h
      rcases ih acc h with h1 | h2
      · exact Or.inl h1
      · exact Or.inr (List.mem_cons_of_mem _ h2)
    · rw [if_neg hr] at h
      rcases ih _ h with h1 | h2
      · rcases List.mem_append.mp h1 with h3 | h4
        · exact Or.inl h3
        · rw [List.mem_singleton] at h4
          subst h4
          exact Or.inr (List.mem_cons_self _ _)
      · exact Or.inr (List.mem_cons_of_mem _ h2)

lemma mem_of_mem_dedup {x : LeadRow} {l : List LeadRow} (h : x ∈ dedupByExternalId l) :
    x ∈ l := by
  rcases dedup_go_mem l [] x h with h1 | h2
  · cases h1
  · exact h2

lemma dedup_go_pairwise (l : List LeadRow) (acc : List LeadRow)
    (hacc : List.Pairwise (fun a b => a.external_id ≠ b.external_id) acc) :
    List.Pairwise (fun a b => a.external_id ≠ b.external_id)
      (l.foldl
        (fun acc r => if acc.any (fun y => y.external_id = r.external_id) then acc else acc ++ [r])
        acc) := by
  induction l generalizing acc with
  | nil => exact hacc
  | cons r rs ih =>
    simp only [List.foldl_cons]
    by_cases hr : acc.any (fun y => y.external_id = r.external_id) = true
    · rw [if_pos hr]
      exact ih acc hacc
    · rw [if_neg hr]
      apply ih
      rw [List.pairwise_append]
      refine ⟨hacc, List.pairwise_singleton _ _, ?_⟩
      intro a ha b hb
      rw [List.mem_singleton] at hb
      subst hb
      intro heq
      exact hr (List.any_eq_true.mpr ⟨a, ha, by simp [heq]⟩)

lemma dedup_pairwise (l : List LeadRow) :
    List.Pairwise (fun a b => a.external_id ≠ b.external_id) (dedupByExternalId l) :=
  dedup_go_pairwise l [] List.Pairwise.nil

lemma mem_filterCompetitors {rows : List LeadRow} {params : BuildParams} {row : LeadRow}
    (h : row ∈ filterCompetitors rows params) :
    row ∈ rows ∧ (params.excludeCompetitors = true → row.is_competitor = false) := by
  unfold filterCompetitors at h
  by_cases he : params.excludeCompetitors = true
  · rw [if_pos he] at h
    rcases List.mem_filter.mp h with ⟨h1, h2⟩
    exact ⟨h1, fun _ => by simpa using h2⟩
  · rw [if_neg he] at h
    exact ⟨h, fun hq => absurd hq he⟩

lemma mem_filterTargets {rows : List LeadRow} {params : BuildParams} {row : LeadRow}
    (h : row ∈ filterTargets rows params) :
    row ∈ rows ∧ (params.onlyTarget = true → row.is_target = true) := by
  unfold filterTargets at h
  by_cases ho : params.onlyTarget = true
  · rw [if_pos ho] at h
    rcases List.mem_filter.mp h with ⟨h1, h2⟩
    exact ⟨h1, fun _ => h2⟩
  · rw [if_neg ho] at h
    exact ⟨h, fun hq => absurd hq ho⟩

lemma mem_filterMinScore {rows : List LeadRow} {params : BuildParams} {row : LeadRow}
    (h : row ∈ filterMinScore rows params) :
    row ∈ rows ∧ (0 < params.minScore → params.minScore ≤ row.score) := by
  unfold filterMinScore at h
  by_cases hm : 0 < params.minScore
  · rw [if_pos hm] at h
    rcases List.mem_filter.mp h with ⟨h1, h2⟩
    exact ⟨h1, fun _ => by simpa using h2⟩
  · rw [if_neg hm] at h
    exact ⟨h, fun hq => absurd hq hm⟩

lemma mem_rowsPassingFilters {rows : List LeadRow} {params : BuildParams} {row : LeadRow}
    (h : row ∈ rowsPassingFilters rows params) :
    row ∈ rows ∧ (params.excludeCompetitors = true → row.is_competitor = false)
      ∧ (params.onlyTarget = true → row.is_target = true)
      ∧ (0 < params.minScore → params.minScore ≤ row.score) := by
  unfold rowsPassingFilters at h
  obtain ⟨h2, hscore⟩ := mem_filterMinScore h
  obtain ⟨h1, htarget⟩ := mem_filterTargets h2
  obtain ⟨h0, hcomp⟩ := mem_filterCompetitors h1
  exact ⟨h0, hcomp, htarget, hscore⟩

/-- Every row produced by the Record Mapper satisfies the classification
invariant: a competitor row is never a target. -/
lemma mapSupabaseRecord_competitor_not_target (record : SupabaseLeadRecord) (vertical : String)
    (row : LeadRow) (h : mapSupabaseRecord record vertical = some row)
    (hc : row.is_competitor = true) : row.is_target = false := by
  simp only [mapSupabaseRecord] at h
  split at h
  · exact Option.noConfusion h
  · split at h
    · exact Option.noConfusion h
    · rw [Option.some_inj] at h
      subst h
      simp only at hc ⊢
      rw [hc]
      rfl

/-- A line that survives `keepNoteLine` contains no `'='`: the guard tests
the trimmed line, and trimming only removes whitespace, so the raw line is
also `'='`-free. -/
lemma keepNoteLine_no_eq {raw : String} (h : keepNoteLine raw = true) :
    '=' ∉ raw.toList := by
  intro hmem
  simp only [keepNoteLine] at h
  split at h
  · exact Bool.noConfusion h
  · rw [Bool.and_eq_true] at h
    have hline : strContains (jsTrim raw) "=" = false := by
      rcases h with ⟨_, h2⟩
      simpa using h2
    have hin : '=' ∈ (jsTrim raw).toList := by
      simpa [jsTrim] using mem_trimChars_of_mem (by decide) hmem
    have hocc : occursIn ['='] (jsTrim raw).toList = true := (occursIn_singleton _ _).mpr hin
    rw [show strContains (jsTrim raw) "=" = occursIn ['='] (jsTrim raw).toList from rfl] at hline
    rw [hocc] at hline
    exact Bool.noConfusion hline

/-- A character different from the joining space occurs in `joinSpace xs`
only if it occurs in one of the joined strings. -/
lemma mem_joinSpace {c : Char} (hc : c ≠ ' ') :
    ∀ {xs : List String}, c ∈ (joinSpace xs).toList → ∃ s ∈ xs, c ∈ s.toList := by
  intro xs
  induction xs with
  | nil => intro h; cases h
  | cons x rest ih =>
    intro h
    cases rest with
    | nil =>
      exact ⟨x, List.mem_singleton_self x, h⟩
    | cons y ys =>
      have hsplit : (joinSpace (x :: y :: ys)).toList
          = x.toList ++ (' ' :: (joinSpace (y :: ys)).toList) := by
        show (x ++ " " ++ joinSpace (y :: ys)).data = _
        rw [String.data_append, String.data_append,
          show (" " : String).data = [' '] from rfl, List.append_assoc]
        rfl
      rw [hsplit] at h
      rcases List.mem_append.mp h with h1 | h2
      · exact ⟨x, List.mem_cons_self _ _, h1⟩
      · rcases List.mem_cons.mp h2 with h3 | h4
        · exact absurd h3 hc
        · obtain ⟨s, hs, hmem⟩ := ih h4
          exact ⟨s, List.mem_cons_of_mem _ hs, hmem⟩

/-! ## Claims -/

/-- Claim C1, counterexample: a record whose notes parse the recognized
metadata key `source` (and nothing else) is still skipped by the Record
Mapper — recognizable metadata keys alone are not treated as pipeline
provenance, contradicting the claim that such records are mapped to a
LeadRow. -/
theorem claim1_counterexample :
    mapSupabaseRecord sourceOnlyRecord "study_abroad" = none
      ∧ metaGet (parseNoteMeta "source=xhs\n你好") "source" = some "xhs" := by
  exact ⟨by decide, by decide⟩

/-- Claim C1 as amended: for a record with non-empty notes, the Record
Mapper returns null exactly when the provenance signal is absent, where the
signal is specifically `openclaw_sync=1` or a non-empty
`external_id`/`post_url`/`author_url` metadata value — general recognized
metadata keys such as `source`, `keyword` or `score` do not count. -/
theorem claim1_provenance_null_iff (record : SupabaseLeadRecord) (vertical : String)
    (h : record.notes.getD "" ≠ "") :
    (mapSupabaseRecord record vertical = none
      ↔ hasOpenclawSignal (parseNoteMeta (record.notes.getD "")) = false) := by
  simp only [mapSupabaseRecord]
  rw [if_neg h]
  cases hs : hasOpenclawSignal (parseNoteMeta (record.notes.getD "")) <;> simp [hs]

/-- Claim C1 witness: the amended theorem applied to the concrete
`sourceOnlyRecord`. -/
theorem claim1_witness :
    mapSupabaseRecord sourceOnlyRecord "study_abroad" = none
      ↔ hasOpenclawSignal (parseNoteMeta (sourceOnlyRecord.notes.getD "")) = false :=
  claim1_provenance_null_iff sourceOnlyRecord "study_abroad" (by decide)

/-- Claim C2, counterexample: the Scenario A record is not mapped to any
LeadRow at all — its notes carry no provenance signal, so the mapper
returns null (first conjunct); and with the sync marker added but no author
name, the defaulted author "Unknown" is classified as noise, making
`is_competitor` true rather than false (second conjunct).  Both facts force
the amendments. -/
theorem claim2_counterexample :
    mapSupabaseRecord { name := some "张三", notes := some scenarioANotes } "study_abroad" = none
      ∧ ((mapSupabaseRecord { notes := some scenarioANotesSynced } "study_abroad").map
          (fun r => r.is_competitor)) = some true := by
  exact ⟨by decide, by decide⟩

/-- Claim C2 as amended: for the Scenario A record augmented with the
`openclaw_sync=1` provenance marker and a non-placeholder author name, the
Record Mapper produces a LeadRow with platform "xhs", not a competitor, a
target, and high intent level (which lies in {medium, high}). -/
theorem claim2_scenarioA_mapping :
    ((mapSupabaseRecord { name := some "张三", notes := some scenarioANotesSynced }
        "study_abroad").map
      (fun r => (r.platform, r.is_competitor, r.is_target, r.intent_level)))
      = some ("xhs", false, true, IntentLevel.high) := by
  decide

/-- Claim C3, counterexample: with two rows passing the filters and a page
limit of one, the payload reports `filtered_rows = 1` — the truncated
length — while the post-filter pre-truncation count is 2. -/
theorem claim3_counterexample :
    (buildPayload [rowHighTarget, rowMidTarget] limitOneParams).summary.filtered_rows = 1
      ∧ (rowsPassingFilters [rowHighTarget, rowMidTarget] limitOneParams).length = 2 := by
  exact ⟨by decide, by decide⟩

/-- Claim C3 as amended: `summary.filtered_rows` equals the length of the
truncated rows list — the post-filter, post-truncation count, i.e. the
minimum of the pre-truncation count and `max 1 limit` — and always equals
`payload.rows.length`, not the larger pre-truncation count. -/
theorem claim3_filtered_rows_is_truncated (rows : List LeadRow) (params : BuildParams) :
    (buildPayload rows params).summary.filtered_rows
        = min (max 1 params.limit).toNat (rowsPassingFilters rows params).length
      ∧ (buildPayload rows params).summary.filtered_rows
        = (buildPayload rows params).rows.length := by
  constructor
  · simp only [buildPayload, List.length_take]
  · rfl

/-- Claim C4, counterexample: the bundled-snapshot loader performs no
deduplication, so a snapshot with two items sharing an `external_id`
produces a response whose ids are not pairwise distinct. -/
theorem claim4_counterexample :
    ((loadRowsFromSnapshot [dupSnapshotItemA, dupSnapshotItemB]).map
        (fun r => r.external_id)) = ["dup-1", "dup-1"]
      ∧ ¬ List.Pairwise (fun a b => a.external_id ≠ b.external_id)
          (loadRowsFromSnapshot [dupSnapshotItemA, dupSnapshotItemB]) := by
  exact ⟨by decide, by decide⟩

/-- Claim C4 as amended: the remote-store (Supabase) loader path does
guarantee pairwise-distinct `external_id` values — its rows pass through the
first-occurrence dedup map before sorting; the snapshot loader does not. -/
theorem claim4_supabase_ids_distinct (records : List SupabaseLeadRecord) (vertical : String) :
    List.Pairwise (fun a b => a.external_id ≠ b.external_id)
      (loadRowsFromSupabaseRecords records vertical) := by
  unfold loadRowsFromSupabaseRecords
  exact ((sortRows_perm _).pairwise_iff (fun h => Ne.symm h)).mpr (dedup_pairwise _)

/-- Claim C5, counterexample: the snapshot loader copies `is_target` and
`is_competitor` from the file without enforcing the invariant, so a
snapshot item carrying both flags produces a row with `is_competitor =
true` and `is_target = true`. -/
theorem claim5_counterexample :
    ((loadRowsFromSnapshot [bothFlagsSnapshotItem]).map
        (fun r => (r.is_competitor, r.is_target))) = [(true, true)] := by
  decide

/-- Claim C5 as amended: every row produced through the Record Mapper —
hence every row of the Supabase loader path — satisfies the invariant
`is_competitor = true → is_target = false`; only the snapshot loader can
violate it. -/
theorem claim5_supabase_competitor_never_target (records : List SupabaseLeadRecord)
    (vertical : String) (row : LeadRow)
    (hmem : row ∈ loadRowsFromSupabaseRecords records vertical)
    (hc : row.is_competitor = true) : row.is_target = false := by
  unfold loadRowsFromSupabaseRecords at hmem
  rw [mem_sortRows] at hmem
  obtain ⟨r, hr, hmap⟩ := List.mem_filterMap.mp (mem_of_mem_dedup hmem)
  exact mapSupabaseRecord_competitor_not_target r vertical row hmap hc

/-- Claim C5 witness: the amended theorem applied to a loaded competitor
row. -/
theorem claim5_witness : promoCompetitorRow.is_target = false :=
  claim5_supabase_competitor_never_target [promoCompetitorRecord] "study_abroad"
    promoCompetitorRow (by decide) (by decide)

/-- Claim C6, counterexample: a mapped record whose metadata supplies
neither a `source` nor a `platform` key gets platform "xhs" — the Record
Mapper's default — not "unknown". -/
theorem claim6_counterexample :
    ((mapSupabaseRecord provenanceOnlyRecord "study_abroad").map (fun r => r.platform))
        = some "xhs"
      ∧ metaGet (parseNoteMeta "openclaw_sync=1\n你好") "source" = none
      ∧ metaGet (parseNoteMeta "openclaw_sync=1\n你好") "platform" = none := by
  exact ⟨by decide, by decide, by decide⟩

/-- Claim C6 as amended: when a mapped record's metadata supplies neither a
usable `source` nor a usable `platform` value, the resulting row's platform
is "xhs" (the Record Mapper's default); only the bundled-snapshot
normalization defaults to "unknown". -/
theorem claim6_platform_defaults_to_xhs (record : SupabaseLeadRecord) (vertical : String)
    (row : LeadRow) (h : mapSupabaseRecord record vertical = some row)
    (hs : jsOr (metaGet (parseNoteMeta (record.notes.getD "")) "source") "" = "")
    (hp : jsOr (metaGet (parseNoteMeta (record.notes.getD "")) "platform") "" = "") :
    row.platform = "xhs" := by
  simp only [mapSupabaseRecord] at h
  split at h
  · exact Option.noConfusion h
  · split at h
    · exact Option.noConfusion h
    · rw [Option.some_inj] at h
      subst h
      simp only
      rw [jsOr_of_blank _ _ hs, jsOr_of_blank _ _ hp]
      decide

/-- Claim C6 witness: the amended theorem applied to the concrete
`provenanceOnlyRecord`. -/
theorem claim6_witness : mappedProvenanceOnlyRow.platform = "xhs" :=
  claim6_platform_defaults_to_xhs provenanceOnlyRecord "study_abroad" mappedProvenanceOnlyRow
    (by decide) (by decide) (by decide)

/-- Claim C7 (confirmed): every row of the built payload respects the
effective filters — its score reaches `min_score`, it is a target when
`only_target` is set, and it is not a competitor when `exclude_competitors`
is set.  The hypothesis that input scores are non-negative is the LeadRow
data-model invariant (scores live in [0,100]); it is needed because the
source skips the numeric filter entirely when `minScore ≤ 0`. -/
theorem claim7_filter_correctness (rows : List LeadRow) (params : BuildParams) (row : LeadRow)
    (hnn : ∀ r ∈ rows, 0 ≤ r.score)
    (hmem : row ∈ (buildPayload rows params).rows) :
    params.minScore ≤ row.score
      ∧ (params.onlyTarget = true → row.is_target = true)
      ∧ (params.excludeCompetitors = true → row.is_competitor = false) := by
  have h3 : row ∈ rowsPassingFilters rows params := by
    simp only [buildPayload] at hmem
    exact List.take_subset _ _ hmem
  obtain ⟨h0, hcomp, htarget, hscore⟩ := mem_rowsPassingFilters h3
  refine ⟨?_, htarget, hcomp⟩
  by_cases hm : 0 < params.minScore
  · exact hscore hm
  · have := hnn row h0
    omega

/-- Claim C7 witness: the theorem applied to a concrete one-row payload. -/
theorem claim7_witness :
    limitOneParams.minScore ≤ rowHighTarget.score
      ∧ (limitOneParams.onlyTarget = true → rowHighTarget.is_target = true)
      ∧ (limitOneParams.excludeCompetitors = true → rowHighTarget.is_competitor = false) :=
  claim7_filter_correctness [rowHighTarget] limitOneParams rowHighTarget (by decide) (by decide)

/-- Claim C8 (confirmed): `scoreIntent` implements exactly the three-case
decision table, tested in order with the first match winning: `high`/22 iff
at least two intent-term hits or one hit plus an urgency marker; else
`medium`/12 iff at least one hit or a question marker; else `low`/0.  The
hit count is stated independently via `countP`, and `question` always
reports the question-marker test. -/
theorem claim8_scoreIntent_decision_table (text : String) (intentTerms : List String) :
    scoreIntent text intentTerms =
      (if 2 ≤ intentTerms.countP (fun term => strContains (jsToLower text) (jsToLower term))
          ∨ (1 ≤ intentTerms.countP (fun term => strContains (jsToLower text) (jsToLower term))
            ∧ containsAny (jsToLower text)
                ["急", "ddl", "deadline", "来不及", "本周", "这周", "马上", "尽快"] = true) then
        { level := IntentLevel.high, bonus := 22,
          question := containsAny (jsToLower text) QUESTION_TERMS }
      else if 1 ≤ intentTerms.countP (fun term => strContains (jsToLower text) (jsToLower term))
          ∨ containsAny (jsToLower text) QUESTION_TERMS = true then
        { level := IntentLevel.medium, bonus := 12,
          question := containsAny (jsToLower text) QUESTION_TERMS }
      else
        { level := IntentLevel.low, bonus := 0,
          question := containsAny (jsToLower text) QUESTION_TERMS }) := by
  simp only [scoreIntent, foldl_count_eq_countP]

/-- Claim C9 (confirmed): the extracted note body never contains an equals
sign — every line containing one (whether or not its keys are recognized)
is removed before joining. -/
theorem claim9_extracted_body_has_no_equals (notes : String) :
    '=' ∉ (extractNoteContent notes).toList := by
  intro h
  have h1 : '=' ∈ (joinSpace ((splitLines notes).filter keepNoteLine)).toList :=
    mem_of_mem_trimChars
      (show '=' ∈ trimChars (joinSpace ((splitLines notes).filter keepNoteLine)).toList from h)
  obtain ⟨s, hs, hmem⟩ := mem_joinSpace (by decide) h1
  exact keepNoteLine_no_eq (List.mem_filter.mp hs).2 hmem

/-- Claim C10 (confirmed): every row the Record Mapper produces has score at
least 17 — the calibrated base is clamped to at least 35, every bonus is
non-negative, and the only subtraction is the competitor penalty of 18, so
the lower clamp at 0 is never reached. -/
theorem claim10_score_at_least_17 (record : SupabaseLeadRecord) (vertical : String)
    (row : LeadRow) (h : mapSupabaseRecord record vertical = some row) :
    (17 : Int) ≤ row.score := by
  simp only [mapSupabaseRecord] at h
  split at h
  · exact Option.noConfusion h
  · split at h
    · exact Option.noConfusion h
    · rw [Option.some_inj] at h
      subst h
      simp only
      exact seventeen_le_clamped_score _ _ _ _ _
        (clamp_lo_le _ _ _)
        (scoreIntent_bonus_nonneg _ _)
        (ite_int_nonneg _ _ _ (by norm_num) (ite_int_nonneg _ _ _ (by norm_num) le_rfl))
        (ite_int_nonneg _ _ _ (by norm_num) le_rfl)
        (ite_int_le _ _ _ _ le_rfl (by norm_num))

/-- Claim C10 witness: the theorem applied to the concrete
`provenanceOnlyRecord`, whose mapped row scores 67. -/
theorem claim10_witness : (17 : Int) ≤ mappedProvenanceOnlyRow.score :=
  claim10_score_at_least_17 provenanceOnlyRecord "study_abroad" mappedProvenanceOnlyRow
    (by decide)

end LeadsRoute
